import Mathlib

/-!
Verification development for `api/models.py` of the mwa2 repository.

The module exposes two stateless façades over a repository directory tree:
`Plist` (the DocumentStore: list/new/read/write/delete of plist documents)
and `MunkiFile` (the BlobStore: list/new/write/delete of opaque uploaded
files).  We shallowly embed the module here:

* the filesystem is an association list from paths (component lists, rooted
  at the repository root `REPO_DIR`) to entries (file with content, or
  directory);
* plist byte strings are modelled abstractly: `Bytes.plist v` is the
  (injective) `plistlib` serialization of the value `v`, and `Bytes.raw bs`
  is any byte string that is not a valid plist serialization, so that
  parsing recovers exactly the serialized value and fails on anything else;
* OS-level I/O failures (the `IOError`/`OSError` branches of the Python
  code) are modelled by fault-injection flags in an `Env`;
* each operation returns its result, the final filesystem, and the list of
  version-control mirror invocations it performed.
-/

namespace MWA2

/-- A plist value: strings, arrays and dictionaries (the shapes the module
manipulates).  Dictionaries are association lists in insertion order. -/
inductive PlistValue where
  | str (s : String)
  | arr (xs : List PlistValue)
  | dict (entries : List (String × PlistValue))

/-- Python truthiness of a plist value: empty strings, arrays and
dictionaries are falsy, everything else is truthy. -/
def PlistValue.truthy : PlistValue → Bool
  | .str s => !(s == "")
  | .arr xs => !xs.isEmpty
  | .dict es => !es.isEmpty

/-- Python truthiness of the `plist_data=None` default parameter of
`Plist.new`: `None` is falsy, a value is as truthy as the value. -/
def optTruthy : Option PlistValue → Bool
  | some v => v.truthy
  | none => false

/-- Abstract model of on-disk byte strings.  `plist v` is the byte string
`plistlib.writePlistToString(v)` (injective by construction); `raw bs` is
any byte string that is not a valid plist serialization. -/
inductive Bytes where
  | plist (v : PlistValue)
  | raw (bs : List Nat)

/-- Model of `plistlib.writePlistToString`: serialization of a value. -/
def writePlistToString (v : PlistValue) : Bytes := .plist v

/-- Model of the parsing half of `plistlib.readPlist`: a serialized value
parses back to itself, any other byte string fails to parse (the
`ExpatError` branch of the Python code). -/
def parsePlist : Bytes → Option PlistValue
  | .plist v => some v
  | .raw _ => none

/-- A filesystem path, as the list of components below the repository root
`REPO_DIR`.  `os.path.join(REPO_DIR, kind, pathname)` becomes
`kind :: pathname` (see `resolve`). -/
abbrev Path := List String

/-- A directory entry: a regular file with its content, or a directory. -/
inductive Entry where
  | file (content : Bytes)
  | dir

/-- Whether an entry is a directory. -/
def Entry.isDirE : Entry → Bool
  | .dir => true
  | .file _ => false

/-- The repository directory tree: an association list from paths to
entries (first binding wins).  The repository root itself is implicit. -/
structure FS where
  entries : List (Path × Entry)

/-- Entry stored at a path. -/
def FS.lookup (fs : FS) (p : Path) : Option Entry := fs.entries.lookup p

/-- Whether a regular file is stored at a path. -/
def FS.isFile (fs : FS) (p : Path) : Bool :=
  match fs.lookup p with
  | some (.file _) => true
  | _ => false

/-- Whether a directory is at a path (the repository root always is). -/
def FS.isDir (fs : FS) (p : Path) : Bool :=
  p.isEmpty ||
    (match fs.lookup p with
     | some .dir => true
     | _ => false)

/-- Model of `os.path.exists`: a file or directory is at the path. -/
def os_path_exists (fs : FS) (p : Path) : Bool := fs.isFile p || fs.isDir p

/-- Store an entry at a path (shadowing any previous binding). -/
def FS.set (fs : FS) (p : Path) (e : Entry) : FS := ⟨(p, e) :: fs.entries⟩

/-- Remove every binding of a path. -/
def FS.erasePath (fs : FS) (p : Path) : FS :=
  ⟨fs.entries.filter (fun q => !(q.1 == p))⟩

/-- The nonempty initial segments of a path, shortest first: the chain of
directories `os.makedirs` has to ensure. -/
def initialSegments (p : Path) : List Path :=
  (List.range p.length).map (fun i => p.take (i + 1))

/-- Create directories at every listed path that has no entry yet. -/
def FS.addDirs (fs : FS) : List Path → FS
  | [] => fs
  | q :: segs =>
    (if (fs.lookup q).isSome then fs else fs.set q .dir).addDirs segs

/-- Fault-injection environment: `git` models whether `settings.GIT_PATH`
is configured (truthiness of the module-level `GIT`), the `*Fault` flags
make the corresponding OS call raise `IOError`/`OSError`, and
`mirrorFault` makes the version-control mirror fail internally. -/
structure Env where
  git : Bool
  mkdirFault : Bool
  openFault : Bool
  readFault : Bool
  unlinkFault : Bool
  mirrorFault : Bool
deriving DecidableEq

/-- The exceptions the module raises: the five domain `FileError`
subclasses, plus the Python `NameError` raised when `Plist.new` reads its
never-assigned `plist` local for an unknown kind. -/
inductive Err where
  | fileReadError
  | fileWriteError
  | fileDeleteError
  | fileDoesNotExistError
  | fileAlreadyExistsError
  | nameError
deriving DecidableEq

/-- Whether an exception is one of the domain `FileError` kinds. -/
def Err.isFileError : Err → Bool
  | .nameError => false
  | _ => true

/-- A recorded invocation of the version-control mirror, with the path and
user it was given and whether the mirror itself succeeded. -/
inductive GitEvent where
  | addFile (p : Path) (user : String) (ok : Bool)
  | deleteFile (p : Path) (user : String) (ok : Bool)
deriving DecidableEq

/-- Result of an operation: the returned value or raised exception, the
final filesystem, and the mirror invocations performed (in order, after
the filesystem mutation they follow). -/
structure PRes (α : Type) where
  res : Except Err α
  fs : FS
  trace : List GitEvent

/-- Modelled from the spec: `MunkiGit().add_file_at_path(path, user)` lives
in `munkiwebadmin/utils.py`, which is not under `src/`.  Per the spec the
mirror is best-effort and "failures are the mirror's own concern (not
surfaced to the caller by the core)", so the call never raises: it only
records an event whose success flag reflects an internal mirror fault. -/
def MunkiGit_add_file_at_path (env : Env) (p : Path) (user : String) :
    GitEvent :=
  .addFile p user (!env.mirrorFault)

/-- Modelled from the spec: `MunkiGit().delete_file_at_path(path, user)`,
the deletion variant of the mirror call; see
`MunkiGit_add_file_at_path`. -/
def MunkiGit_delete_file_at_path (env : Env) (p : Path) (user : String) :
    GitEvent :=
  .deleteFile p user (!env.mirrorFault)

/-- Model of `os.makedirs(p)`: raises on an injected fault or when some
initial segment of `p` is a regular file; otherwise creates a directory at
every missing initial segment of `p`. -/
def os_makedirs (env : Env) (fs : FS) (p : Path) : Except Unit FS :=
  if env.mkdirFault || (initialSegments p).any (fun q => fs.isFile q) then
    .error ()
  else
    .ok (fs.addDirs (initialSegments p))

/-- Model of `open(p, 'w')` followed by writing `data` and closing: raises
on an injected fault, when `p` is a directory, or when the parent of `p`
is not a directory; otherwise stores the full content at `p`, overwriting
any previous file. -/
def os_open_write (env : Env) (fs : FS) (p : Path) (data : Bytes) :
    Except Unit FS :=
  if env.openFault || fs.isDir p || !(fs.isDir p.dropLast) then .error ()
  else .ok (fs.set p (.file data))

/-- Model of opening and reading the bytes of the file at `p` (the I/O half
of `plistlib.readPlist`): raises on an injected fault or when no regular
file is at `p`. -/
def os_read_contents (env : Env) (fs : FS) (p : Path) : Except Unit Bytes :=
  if env.readFault then .error ()
  else
    match fs.lookup p with
    | some (.file d) => .ok d
    | _ => .error ()

/-- Model of `os.unlink(p)`: raises on an injected fault or when `p` is not
a regular file; otherwise removes the file. -/
def os_unlink (env : Env) (fs : FS) (p : Path) : Except Unit FS :=
  if env.unlinkFault || !(fs.isFile p) then .error ()
  else .ok (fs.erasePath p)

/-- Path resolution, `os.path.join(REPO_DIR, kind, pathname)`: the caller
supplied relative pathname (itself a component list) below the kind
subdirectory of the repository root. -/
def resolve (kind : String) (pathname : Path) : Path := kind :: pathname

/-- The six manifest sections of the default manifests template, in the
order the source lists them. -/
def manifestSections : List String :=
  ["catalogs", "included_manifests", "managed_installs",
   "managed_uninstalls", "managed_updates", "optional_installs"]

/-- The "useful empty plist" `Plist.new` synthesizes for kind
`manifests`: each section mapped to an empty array. -/
def manifestTemplate : PlistValue :=
  .dict (manifestSections.map (fun s => (s, .arr [])))

/-- The default plist `Plist.new` synthesizes for kind `pkgsinfo`. -/
def pkgsinfoTemplate : PlistValue :=
  .dict [("name", .str "ProductName"),
         ("display_name", .str "Display Name"),
         ("description", .str "Product description"),
         ("version", .str "1.0"),
         ("catalogs", .arr [.str "development"])]

/-- `Plist.new(kind, pathname, user, plist_data=None)` from
`src/api/models.py` lines 73-118: fail if the path exists; create missing
parent directories (`FileWriteError` on failure); take the caller content
if (Python-)truthy, else the kind's template, else leave the `plist`
local unassigned (`NameError` at serialization); serialize; write the
bytes (`FileWriteError` on failure); on success notify the mirror when
`user and GIT`; return the serialized bytes. -/
def Plist.new (env : Env) (fs : FS) (kind : String) (pathname : Path)
    (user : String) (plist_data : Option PlistValue) : PRes Bytes :=
  if os_path_exists fs (resolve kind pathname) then
    ⟨.error .fileAlreadyExistsError, fs, []⟩
  else
    match (if os_path_exists fs (resolve kind pathname).dropLast then
             Except.ok fs
           else
             match os_makedirs env fs (resolve kind pathname).dropLast with
             | .error _ => Except.error ()
             | .ok fs1 => Except.ok fs1) with
    | .error _ => ⟨.error .fileWriteError, fs, []⟩
    | .ok fs1 =>
      match (if optTruthy plist_data then plist_data
             else if kind = "manifests" then some manifestTemplate
             else if kind = "pkgsinfo" then some pkgsinfoTemplate
             else none) with
      | none => ⟨.error .nameError, fs1, []⟩
      | some plist =>
        match os_open_write env fs1 (resolve kind pathname)
            (writePlistToString plist) with
        | .error _ => ⟨.error .fileWriteError, fs1, []⟩
        | .ok fs2 =>
          ⟨.ok (writePlistToString plist), fs2,
           if user ≠ "" ∧ env.git = true then
             [MunkiGit_add_file_at_path env (resolve kind pathname) user]
           else []⟩

/-- `Plist.read(kind, pathname)` from `src/api/models.py` lines 120-135:
fail if the path does not exist; `FileReadError` on an I/O failure while
reading; a file that does not parse as a plist yields an empty dictionary
(the `ExpatError` branch); otherwise the parsed value. -/
def Plist.read (env : Env) (fs : FS) (kind : String) (pathname : Path) :
    PRes PlistValue :=
  if !(os_path_exists fs (resolve kind pathname)) then
    ⟨.error .fileDoesNotExistError, fs, []⟩
  else
    match os_read_contents env fs (resolve kind pathname) with
    | .error _ => ⟨.error .fileReadError, fs, []⟩
    | .ok bytes =>
      match parsePlist bytes with
      | some v => ⟨.ok v, fs, []⟩
      | none => ⟨.ok (.dict []), fs, []⟩

/-- `Plist.write(data, kind, pathname, user)` from `src/api/models.py`
lines 137-158: no existence check; create missing parent directories
(`FileWriteError` on failure); write `data` verbatim (`FileWriteError` on
failure); on success notify the mirror when `user and GIT`. -/
def Plist.write (env : Env) (fs : FS) (data : Bytes) (kind : String)
    (pathname : Path) (user : String) : PRes Unit :=
  match (if os_path_exists fs (resolve kind pathname).dropLast then
           Except.ok fs
         else
           match os_makedirs env fs (resolve kind pathname).dropLast with
           | .error _ => Except.error ()
           | .ok fs1 => Except.ok fs1) with
  | .error _ => ⟨.error .fileWriteError, fs, []⟩
  | .ok fs1 =>
    match os_open_write env fs1 (resolve kind pathname) data with
    | .error _ => ⟨.error .fileWriteError, fs1, []⟩
    | .ok fs2 =>
      ⟨.ok (), fs2,
       if user ≠ "" ∧ env.git = true then
         [MunkiGit_add_file_at_path env (resolve kind pathname) user]
       else []⟩

/-- `Plist.delete(kind, pathname, user)` from `src/api/models.py` lines
160-175: fail if the path does not exist; unlink (`FileDeleteError` on
failure); on success notify the mirror (deletion variant) when
`user and GIT`. -/
def Plist.delete (env : Env) (fs : FS) (kind : String) (pathname : Path)
    (user : String) : PRes Unit :=
  if !(os_path_exists fs (resolve kind pathname)) then
    ⟨.error .fileDoesNotExistError, fs, []⟩
  else
    match os_unlink env fs (resolve kind pathname) with
    | .error _ => ⟨.error .fileDeleteError, fs, []⟩
    | .ok fs1 =>
      ⟨.ok (), fs1,
       if user ≠ "" ∧ env.git = true then
         [MunkiGit_delete_file_at_path env (resolve kind pathname) user]
       else []⟩

/-- Model of `name.startswith('.')`: the first character is a period. -/
def startsWithDot (s : String) : Bool :=
  match s.data with
  | [] => false
  | c :: _ => c == '.'

/-- Python's `for dirname in dirnames: if dirname.startswith('.'):
dirnames.remove(dirname)` loop of `Plist.list`, faithfully including the
index-based iteration over the list being mutated: `i` is the iterator's
internal index, `List.erase` is `list.remove` (first occurrence), and an
element that slides into an already-visited index is never examined.  The
fuel is bounded by the initial length, which the loop never exceeds. -/
def pyRemoveDotsAux : Nat → List String → Nat → List String
  | 0, l, _ => l
  | fuel + 1, l, i =>
    if h : i < l.length then
      let x := l.get ⟨i, h⟩
      if startsWithDot x then pyRemoveDotsAux fuel (l.erase x) (i + 1)
      else pyRemoveDotsAux fuel l (i + 1)
    else l

/-- The dot-directory pruning loop of `Plist.list` (see
`pyRemoveDotsAux`). -/
def pyRemoveDots (l : List String) : List String :=
  pyRemoveDotsAux l.length l 0

/-- The fixed control directories `MunkiFile.list` prunes. -/
def skipdirs : List String := [".svn", ".git", ".AppleDouble"]

/-- The `for skipdir in skipdirs: if skipdir in dirnames:
dirnames.remove(skipdir)` loop of `MunkiFile.list`: erase each named
directory (the membership test only guards a first-occurrence removal). -/
def removeSkipdirs (l : List String) : List String :=
  skipdirs.foldl (fun acc sd => acc.erase sd) l

/-- Names of the immediate children of `p` that are directories
(`wantDir = true`) or regular files (`wantDir = false`), in entry order:
the `dirnames`/`filenames` of one `os.walk` step. -/
def FS.childNames (fs : FS) (p : Path) (wantDir : Bool) : List String :=
  fs.entries.filterMap
    (fun q =>
      if !q.1.isEmpty && q.1.dropLast == p && q.2.isDirE == wantDir then
        some (q.1.getLastD "")
      else none)

/-- One `os.walk` traversal from `dirpath` (top-down, depth-first): list
the non-dot files of the current directory as pathnames relative to the
kind directory (`dirpath[len(kind_dir):]` plus the name), then recurse
into the subdirectories that survive `prune` (the in-place `dirnames`
mutation), in order.  `fuel` bounds the recursion depth. -/
def walkList (fs : FS) (prune : List String → List String)
    (kindDirLen : Nat) : Nat → Path → List Path
  | 0, _ => []
  | fuel + 1, dirpath =>
    let pruned := prune (fs.childNames dirpath true)
    let filenames := fs.childNames dirpath false
    let subdir := dirpath.drop kindDirLen
    (filenames.filter (fun n => !startsWithDot n)).map
        (fun n => subdir ++ [n])
      ++ (pruned.map
            (fun d =>
              walkList fs prune kindDirLen fuel (dirpath ++ [d]))).flatten

/-- A recursion-depth bound for `walkList`: longer than every stored
path. -/
def FS.fuelBound (fs : FS) : Nat :=
  fs.entries.foldl (fun m q => max m q.1.length) 0 + 1

/-- `Plist.list(kind)` from `src/api/models.py` lines 55-71: walk the kind
directory, pruning dot-directories with the (buggy) in-place removal loop
and filtering out dot files; the `record_status` progress call is a
fire-and-forget external sink and is omitted. -/
def Plist.list (fs : FS) (kind : String) : List Path :=
  walkList fs pyRemoveDots 1 fs.fuelBound [kind]

/-- `MunkiFile.list(kind)` from `src/api/models.py` lines 185-198: walk the
kind directory, pruning only the fixed `skipdirs` names and filtering out
dot files. -/
def MunkiFile.list (fs : FS) (kind : String) : List Path :=
  walkList fs removeSkipdirs 1 fs.fuelBound [kind]

/-- An upload: the sequence of byte chunks `fileupload.chunks()` yields. -/
structure FileUpload where
  chunks : List (List Nat)

/-- `MunkiFile.get_fullpath(kind, pathname)` from `src/api/models.py`
lines 180-183: pure path construction. -/
def MunkiFile.get_fullpath (kind : String) (pathname : Path) : Path :=
  resolve kind pathname

/-- `MunkiFile.write(kind, fileupload, pathname, user)` from
`src/api/models.py` lines 219-230: no existence check; open the path and
write the upload's chunks sequentially (modelled as one write of their
concatenation); `FileWriteError` on an I/O failure.  No mirror call. -/
def MunkiFile.write (env : Env) (fs : FS) (kind : String)
    (fileupload : FileUpload) (pathname : Path) (user : String) :
    PRes Unit :=
  match os_open_write env fs (resolve kind pathname)
      (.raw fileupload.chunks.flatten) with
  | .error _ => ⟨.error .fileWriteError, fs, []⟩
  | .ok fs1 => ⟨.ok (), fs1, []⟩

/-- `MunkiFile.new(kind, fileupload, pathname, user)` from
`src/api/models.py` lines 200-217: fail if the path exists; create
missing parent directories (`FileWriteError` on failure); delegate to
`MunkiFile.write`. -/
def MunkiFile.new (env : Env) (fs : FS) (kind : String)
    (fileupload : FileUpload) (pathname : Path) (user : String) :
    PRes Unit :=
  if os_path_exists fs (resolve kind pathname) then
    ⟨.error .fileAlreadyExistsError, fs, []⟩
  else
    match (if os_path_exists fs (resolve kind pathname).dropLast then
             Except.ok fs
           else
             match os_makedirs env fs (resolve kind pathname).dropLast with
             | .error _ => Except.error ()
             | .ok fs1 => Except.ok fs1) with
    | .error _ => ⟨.error .fileWriteError, fs, []⟩
    | .ok fs1 => MunkiFile.write env fs1 kind fileupload pathname user

/-- `MunkiFile.delete(kind, pathname, user)` from `src/api/models.py`
lines 232-244: fail if the path does not exist; unlink
(`FileDeleteError` on failure).  No mirror call. -/
def MunkiFile.delete (env : Env) (fs : FS) (kind : String) (pathname : Path)
    (user : String) : PRes Unit :=
  if !(os_path_exists fs (resolve kind pathname)) then
    ⟨.error .fileDoesNotExistError, fs, []⟩
  else
    match os_unlink env fs (resolve kind pathname) with
    | .error _ => ⟨.error .fileDeleteError, fs, []⟩
    | .ok fs1 => ⟨.ok (), fs1, []⟩

/-- A no-fault environment with the version-control mirror disabled. -/
def env0 : Env := ⟨false, false, false, false, false, false⟩

/-- A no-fault environment with the version-control mirror enabled. -/
def envGit : Env := ⟨true, false, false, false, false, false⟩

/-- A repository holding just an empty `manifests` kind directory. -/
def fs0 : FS := ⟨[(["manifests"], .dir)]⟩

/-- A repository holding just an empty `icons` kind directory. -/
def fsIcons : FS := ⟨[(["icons"], .dir)]⟩

/-- A repository with one manifest document stored. -/
def fsM : FS :=
  ⟨[(["manifests"], .dir),
    (["manifests", "m1"], .file (.plist manifestTemplate))]⟩

/-- A repository in which the `manifests` kind directory holds two sibling
dot-directories `.a` and `.b` (in that order) and a file `x` inside
`.b`. -/
def fsDotBug : FS :=
  ⟨[(["manifests"], .dir),
    (["manifests", ".a"], .dir),
    (["manifests", ".b"], .dir),
    (["manifests", ".b", "x"], .file (.raw [1]))]⟩

/-- A repository in which the `icons` kind directory holds a dot-directory
`.hidden` (not one of the fixed `skipdirs`) containing a file `y`. -/
def fsHiddenBlob : FS :=
  ⟨[(["icons"], .dir),
    (["icons", ".hidden"], .dir),
    (["icons", ".hidden", "y"], .file (.raw [2]))]⟩

theorem lookup_set_self (fs : FS) (p : Path) (e : Entry) :
    (fs.set p e).lookup p = some e := by
  simp [FS.set, FS.lookup]

theorem lookup_set_ne (fs : FS) (p q : Path) (e : Entry) (h : q ≠ p) :
    (fs.set p e).lookup q = fs.lookup q := by
  simp [FS.set, FS.lookup, List.lookup_cons, beq_eq_false_iff_ne.mpr h]

theorem lookup_filterOut_self (l : List (Path × Entry)) (p : Path) :
    (l.filter (fun q => !(q.1 == p))).lookup p = none := by
  induction l with
  | nil => rfl
  | cons a l ih =>
    by_cases h : a.1 = p
    · rw [List.filter_cons_of_neg (by simp [h])]
      exact ih
    · rw [List.filter_cons_of_pos (by simp [h])]
      rcases a with ⟨k, e⟩
      rw [List.lookup_cons]
      have hb : (p == k) = false := beq_eq_false_iff_ne.mpr (fun hh => h hh.symm)
      rw [hb]
      exact ih

theorem lookup_filterOut_ne (l : List (Path × Entry)) (p q : Path)
    (h : q ≠ p) :
    (l.filter (fun r => !(r.1 == p))).lookup q = l.lookup q := by
  induction l with
  | nil => rfl
  | cons a l ih =>
    rcases a with ⟨k, e⟩
    by_cases ha : k = p
    · rw [List.filter_cons_of_neg (by simp [ha])]
      rw [ih, List.lookup_cons]
      have hb : (q == k) = false := beq_eq_false_iff_ne.mpr (ha ▸ h)
      rw [hb]
    · rw [List.filter_cons_of_pos (by simp [ha])]
      rw [List.lookup_cons, List.lookup_cons]
      cases hqk : (q == k) with
      | true => rfl
      | false => exact ih

theorem lookup_erasePath_self (fs : FS) (p : Path) :
    (fs.erasePath p).lookup p = none :=
  lookup_filterOut_self fs.entries p

theorem lookup_erasePath_ne (fs : FS) (p q : Path) (h : q ≠ p) :
    (fs.erasePath p).lookup q = fs.lookup q :=
  lookup_filterOut_ne fs.entries p q h

theorem addDirs_isFile (segs : List Path) (fs : FS) (p : Path) :
    (fs.addDirs segs).isFile p = fs.isFile p := by
  induction segs generalizing fs with
  | nil => rfl
  | cons q segs ih =>
    unfold FS.addDirs
    rw [ih]
    rcases hq : fs.lookup q with _ | e
    · simp only [hq, Option.isSome_none, Bool.false_eq_true, if_false]
      by_cases hpq : p = q
      · subst hpq
        simp [FS.isFile, lookup_set_self, hq]
      · simp [FS.isFile, lookup_set_ne fs q p _ hpq]
    · simp [hq]

theorem addDirs_lookup_or (segs : List Path) (fs : FS) (p : Path) :
    (fs.addDirs segs).lookup p = fs.lookup p ∨
    (fs.addDirs segs).lookup p = some .dir := by
  induction segs generalizing fs with
  | nil => exact Or.inl rfl
  | cons q segs ih =>
    unfold FS.addDirs
    rcases hq : fs.lookup q with _ | e
    · simp only [hq, Option.isSome_none, Bool.false_eq_true, if_false]
      rcases ih (fs.set q .dir) with h | h
      · by_cases hpq : p = q
        · subst hpq
          rw [lookup_set_self] at h
          exact Or.inr h
        · rw [lookup_set_ne fs q p _ hpq] at h
          exact Or.inl h
      · exact Or.inr h
    · simpa [hq] using ih fs

theorem addDirs_isSome_mono (segs : List Path) (fs : FS) (p : Path)
    (h : (fs.lookup p).isSome = true) :
    ((fs.addDirs segs).lookup p).isSome = true := by
  rcases addDirs_lookup_or segs fs p with h' | h' <;> rw [h']
  · exact h
  · rfl

theorem addDirs_isSome_of_mem (segs : List Path) (fs : FS) (p : Path)
    (h : p ∈ segs) :
    ((fs.addDirs segs).lookup p).isSome = true := by
  induction segs generalizing fs with
  | nil => cases h
  | cons q segs ih =>
    unfold FS.addDirs
    rcases List.mem_cons.mp h with rfl | hmem
    · rcases hq : fs.lookup p with _ | e
      · simp only [hq, Option.isSome_none, Bool.false_eq_true, if_false]
        exact addDirs_isSome_mono segs _ p (by rw [lookup_set_self]; rfl)
      · simp only [hq, Option.isSome_some, if_true]
        exact addDirs_isSome_mono segs fs p (by rw [hq]; rfl)
    · rcases hq : fs.lookup q with _ | e
      · simp only [hq, Option.isSome_none, Bool.false_eq_true, if_false]
        exact ih _ hmem
      · simp only [hq, Option.isSome_some, if_true]
        exact ih _ hmem

theorem addDirs_lookup_not_mem (segs : List Path) (fs : FS) (p : Path)
    (h : p ∉ segs) :
    (fs.addDirs segs).lookup p = fs.lookup p := by
  induction segs generalizing fs with
  | nil => rfl
  | cons q segs ih =>
    unfold FS.addDirs
    have hpq : p ≠ q := fun hh => h (hh ▸ List.mem_cons_self q segs)
    have hmem : p ∉ segs := fun hh => h (List.mem_cons_of_mem q hh)
    rcases hq : fs.lookup q with _ | e
    · simp only [hq, Option.isSome_none, Bool.false_eq_true, if_false]
      rw [ih _ hmem, lookup_set_ne fs q p _ hpq]
    · simp only [hq, Option.isSome_some, if_true]
      exact ih fs hmem

theorem length_le_of_mem_initialSegments (q p : Path)
    (h : q ∈ initialSegments p) : q.length ≤ p.length := by
  unfold initialSegments at h
  rcases List.mem_map.mp h with ⟨i, _, rfl⟩
  simp [List.length_take]

theorem self_mem_initialSegments (p : Path) (hp : p ≠ []) :
    p ∈ initialSegments p := by
  unfold initialSegments
  have hl : 0 < p.length := List.length_pos.mpr hp
  refine List.mem_map.mpr ⟨p.length - 1, ?_, ?_⟩
  · exact List.mem_range.mpr (by omega)
  · rw [Nat.sub_add_cancel hl, List.take_length]

theorem lookup_eq_none_of_not_exists (fs : FS) (p : Path)
    (h : os_path_exists fs p = false) :
    fs.lookup p = none := by
  simp only [os_path_exists, Bool.or_eq_false_iff] at h
  obtain ⟨hf, hd⟩ := h
  simp only [FS.isFile] at hf
  simp only [FS.isDir, Bool.or_eq_false_iff] at hd
  rcases hlu : fs.lookup p with _ | e
  · rfl
  · cases e
    · rw [hlu] at hf; simp at hf
    · rw [hlu] at hd; simp at hd

theorem os_open_write_ok {env : Env} {fs : FS} {p : Path} {data : Bytes}
    {fs' : FS} (h : os_open_write env fs p data = .ok fs') :
    fs' = fs.set p (.file data) ∧ env.openFault = false ∧
      fs.isDir p = false ∧ fs.isDir p.dropLast = true := by
  unfold os_open_write at h
  split at h
  · cases h
  · next hc =>
    simp only [Bool.or_eq_true, Bool.not_eq_true', not_or, Bool.not_eq_true,
      Bool.not_eq_false] at hc
    obtain ⟨⟨h1, h2⟩, h3⟩ := hc
    exact ⟨(Except.ok.inj h).symm, h1, h2, h3⟩

theorem os_makedirs_ok {env : Env} {fs : FS} {p : Path} {fs' : FS}
    (h : os_makedirs env fs p = .ok fs') :
    fs' = fs.addDirs (initialSegments p) ∧ env.mkdirFault = false := by
  unfold os_makedirs at h
  split at h
  · cases h
  · next hc =>
    simp only [Bool.or_eq_true, not_or, Bool.not_eq_true] at hc
    exact ⟨(Except.ok.inj h).symm, hc.1⟩

theorem os_unlink_ok {env : Env} {fs : FS} {p : Path} {fs' : FS}
    (h : os_unlink env fs p = .ok fs') :
    fs' = fs.erasePath p ∧ env.unlinkFault = false ∧ fs.isFile p = true := by
  unfold os_unlink at h
  split at h
  · cases h
  · next hc =>
    simp only [Bool.or_eq_true, Bool.not_eq_true', not_or, Bool.not_eq_true,
      Bool.not_eq_false] at hc
    exact ⟨(Except.ok.inj h).symm, hc.1, hc.2⟩

theorem Plist_read_of_plist_file (env : Env) (fs : FS) (kind : String)
    (pathname : Path) (v : PlistValue)
    (hf : fs.lookup (resolve kind pathname) = some (.file (.plist v)))
    (hrf : env.readFault = false) :
    (Plist.read env fs kind pathname).res = .ok v := by
  have hfile : fs.isFile (resolve kind pathname) = true := by
    simp [FS.isFile, hf]
  have hex : os_path_exists fs (resolve kind pathname) = true := by
    simp [os_path_exists, hfile]
  simp [Plist.read, hex, os_read_contents, hrf, hf, parsePlist]

theorem Plist_new_ok (env : Env) (fs : FS) (kind : String) (pathname : Path)
    (user : String) (pd : Option PlistValue) (d : Bytes)
    (h : (Plist.new env fs kind pathname user pd).res = .ok d) :
    ∃ v, d = Bytes.plist v
      ∧ (optTruthy pd = true → pd = some v)
      ∧ (optTruthy pd = false →
          (kind = "manifests" ∧ v = manifestTemplate) ∨
          (kind = "pkgsinfo" ∧ v = pkgsinfoTemplate))
      ∧ (Plist.new env fs kind pathname user pd).fs.lookup
          (resolve kind pathname) = some (.file d) := by
  by_cases hex : os_path_exists fs (resolve kind pathname) = true
  · exfalso
    simp [Plist.new, hex] at h
  · rw [Bool.not_eq_true] at hex
    rcases hstep : (if os_path_exists fs (resolve kind pathname).dropLast then
                      Except.ok fs
                    else
                      match os_makedirs env fs (resolve kind pathname).dropLast with
                      | .error _ => Except.error ()
                      | .ok fs1 => Except.ok fs1) with _ | fs1
    · exfalso
      simp [Plist.new, hex, hstep] at h
    · rcases hplist : (if optTruthy pd then pd
                       else if kind = "manifests" then some manifestTemplate
                       else if kind = "pkgsinfo" then some pkgsinfoTemplate
                       else none) with _ | plist
      · exfalso
        simp [Plist.new, hex, hstep, hplist] at h
      · rcases how : os_open_write env fs1 (resolve kind pathname)
            (writePlistToString plist) with _ | fs2
        · exfalso
          simp [Plist.new, hex, hstep, hplist, how] at h
        · have hd : d = writePlistToString plist := by
            simp [Plist.new, hex, hstep, hplist, how] at h
            exact h.symm
          refine ⟨plist, hd, ?_, ?_, ?_⟩
          · intro ht
            rw [ht, if_pos rfl] at hplist
            exact hplist
          · intro hf
            rw [hf] at hplist
            simp only [Bool.false_eq_true, if_false] at hplist
            by_cases hm : kind = "manifests"
            · rw [if_pos hm] at hplist
              exact Or.inl ⟨hm, (Option.some.inj hplist).symm⟩
            · rw [if_neg hm] at hplist
              by_cases hpk : kind = "pkgsinfo"
              · rw [if_pos hpk] at hplist
                exact Or.inr ⟨hpk, (Option.some.inj hplist).symm⟩
              · rw [if_neg hpk] at hplist
                cases hplist
          · have hfs : (Plist.new env fs kind pathname user pd).fs = fs2 := by
              simp [Plist.new, hex, hstep, hplist, how]
            rw [hfs, hd, (os_open_write_ok how).1, lookup_set_self]

theorem Plist_write_ok (env : Env) (fs : FS) (data : Bytes) (kind : String)
    (pathname : Path) (user : String)
    (h : (Plist.write env fs data kind pathname user).res = .ok ()) :
    (Plist.write env fs data kind pathname user).fs.lookup
      (resolve kind pathname) = some (.file data) := by
  rcases hstep : (if os_path_exists fs (resolve kind pathname).dropLast then
                    Except.ok fs
                  else
                    match os_makedirs env fs (resolve kind pathname).dropLast with
                    | .error _ => Except.error ()
                    | .ok fs1 => Except.ok fs1) with _ | fs1
  · exfalso
    simp [Plist.write, hstep] at h
  · rcases how : os_open_write env fs1 (resolve kind pathname) data with _ | fs2
    · exfalso
      simp [Plist.write, hstep, how] at h
    · have hfs : (Plist.write env fs data kind pathname user).fs = fs2 := by
        simp [Plist.write, hstep, how]
      rw [hfs, (os_open_write_ok how).1, lookup_set_self]

theorem Plist_write_res (env : Env) (fs : FS) (data : Bytes) (kind : String)
    (pathname : Path) (user : String) :
    (Plist.write env fs data kind pathname user).res = .ok () ∨
    (Plist.write env fs data kind pathname user).res
      = .error .fileWriteError := by
  rcases hstep : (if os_path_exists fs (resolve kind pathname).dropLast then
                    Except.ok fs
                  else
                    match os_makedirs env fs (resolve kind pathname).dropLast with
                    | .error _ => Except.error ()
                    | .ok fs1 => Except.ok fs1) with _ | fs1
  · right
    simp [Plist.write, hstep]
  · rcases how : os_open_write env fs1 (resolve kind pathname) data with _ | fs2
    · right
      simp [Plist.write, hstep, how]
    · left
      simp [Plist.write, hstep, how]

theorem Plist_delete_ok (env : Env) (fs : FS) (kind : String)
    (pathname : Path) (user : String)
    (h : (Plist.delete env fs kind pathname user).res = .ok ()) :
    (Plist.delete env fs kind pathname user).fs.lookup
      (resolve kind pathname) = none := by
  by_cases hex : os_path_exists fs (resolve kind pathname) = true
  · rcases hul : os_unlink env fs (resolve kind pathname) with _ | fs1
    · exfalso
      simp [Plist.delete, hex, hul] at h
    · have hfs : (Plist.delete env fs kind pathname user).fs = fs1 := by
        simp [Plist.delete, hex, hul]
      rw [hfs, (os_unlink_ok hul).1, lookup_erasePath_self]
  · exfalso
    rw [Bool.not_eq_true] at hex
    simp [Plist.delete, hex] at h

theorem not_exists_of_lookup_none (fs : FS) (kind : String) (pathname : Path)
    (h : fs.lookup (resolve kind pathname) = none) :
    os_path_exists fs (resolve kind pathname) = false := by
  rw [show resolve kind pathname = kind :: pathname from rfl] at h
  simp [os_path_exists, FS.isFile, FS.isDir, resolve, h]

theorem MunkiFile_new_ok (env : Env) (fs : FS) (kind : String)
    (fu : FileUpload) (pathname : Path) (user : String)
    (h : (MunkiFile.new env fs kind fu pathname user).res = .ok ()) :
    (MunkiFile.new env fs kind fu pathname user).fs.lookup
      (resolve kind pathname) = some (.file (.raw fu.chunks.flatten)) := by
  by_cases hex : os_path_exists fs (resolve kind pathname) = true
  · exfalso
    simp [MunkiFile.new, hex] at h
  · rw [Bool.not_eq_true] at hex
    rcases hstep : (if os_path_exists fs (resolve kind pathname).dropLast then
                      Except.ok fs
                    else
                      match os_makedirs env fs (resolve kind pathname).dropLast with
                      | .error _ => Except.error ()
                      | .ok fs1 => Except.ok fs1) with _ | fs1
    · exfalso
      simp [MunkiFile.new, hex, hstep] at h
    · have hW : MunkiFile.new env fs kind fu pathname user
          = MunkiFile.write env fs1 kind fu pathname user := by
        simp [MunkiFile.new, hex, hstep]
      rw [hW] at h ⊢
      rcases how : os_open_write env fs1 (resolve kind pathname)
          (.raw fu.chunks.flatten) with _ | fs2
      · exfalso
        simp [MunkiFile.write, how] at h
      · have hfs : (MunkiFile.write env fs1 kind fu pathname user).fs = fs2 := by
          simp [MunkiFile.write, how]
        rw [hfs, (os_open_write_ok how).1, lookup_set_self]

theorem MunkiFile_write_trace (env : Env) (fs : FS) (kind : String)
    (fu : FileUpload) (pathname : Path) (user : String) :
    (MunkiFile.write env fs kind fu pathname user).trace = [] := by
  rcases how : os_open_write env fs (resolve kind pathname)
      (.raw fu.chunks.flatten) with _ | fs1 <;>
    simp [MunkiFile.write, how]

theorem MunkiFile_new_trace (env : Env) (fs : FS) (kind : String)
    (fu : FileUpload) (pathname : Path) (user : String) :
    (MunkiFile.new env fs kind fu pathname user).trace = [] := by
  by_cases hex : os_path_exists fs (resolve kind pathname) = true
  · simp [MunkiFile.new, hex]
  · rw [Bool.not_eq_true] at hex
    rcases hstep : (if os_path_exists fs (resolve kind pathname).dropLast then
                      Except.ok fs
                    else
                      match os_makedirs env fs (resolve kind pathname).dropLast with
                      | .error _ => Except.error ()
                      | .ok fs1 => Except.ok fs1) with _ | fs1
    · simp [MunkiFile.new, hex, hstep]
    · have hW : MunkiFile.new env fs kind fu pathname user
          = MunkiFile.write env fs1 kind fu pathname user := by
        simp [MunkiFile.new, hex, hstep]
      rw [hW]
      exact MunkiFile_write_trace env fs1 kind fu pathname user

theorem MunkiFile_delete_trace (env : Env) (fs : FS) (kind : String)
    (pathname : Path) (user : String) :
    (MunkiFile.delete env fs kind pathname user).trace = [] := by
  by_cases hex : os_path_exists fs (resolve kind pathname) = true
  · rcases hul : os_unlink env fs (resolve kind pathname) with _ | fs1 <;>
      simp [MunkiFile.delete, hex, hul]
  · rw [Bool.not_eq_true] at hex
    simp [MunkiFile.delete, hex]

theorem Plist_read_trace (env : Env) (fs : FS) (kind : String)
    (pathname : Path) :
    (Plist.read env fs kind pathname).trace = [] := by
  by_cases hex : os_path_exists fs (resolve kind pathname) = true
  · rcases hrd : os_read_contents env fs (resolve kind pathname) with _ | bytes
    · simp [Plist.read, hex, hrd]
    · rcases hpv : parsePlist bytes with _ | v <;>
        simp [Plist.read, hex, hrd, hpv]
  · rw [Bool.not_eq_true] at hex
    simp [Plist.read, hex]

theorem new_trace_cases (env : Env) (fs : FS) (kind : String)
    (pathname : Path) (user : String) (pd : Option PlistValue) :
    (Plist.new env fs kind pathname user pd).trace = [] ∨
    ((user ≠ "" ∧ env.git = true) ∧
     (Plist.new env fs kind pathname user pd).trace
       = [MunkiGit_add_file_at_path env (resolve kind pathname) user]) := by
  by_cases hex : os_path_exists fs (resolve kind pathname) = true
  · left; simp [Plist.new, hex]
  · rw [Bool.not_eq_true] at hex
    rcases hstep : (if os_path_exists fs (resolve kind pathname).dropLast then
                      Except.ok fs
                    else
                      match os_makedirs env fs (resolve kind pathname).dropLast with
                      | .error _ => Except.error ()
                      | .ok fs1 => Except.ok fs1) with _ | fs1
    · left; simp [Plist.new, hex, hstep]
    · rcases hplist : (if optTruthy pd then pd
                       else if kind = "manifests" then some manifestTemplate
                       else if kind = "pkgsinfo" then some pkgsinfoTemplate
                       else none) with _ | plist
      · left; simp [Plist.new, hex, hstep, hplist]
      · rcases how : os_open_write env fs1 (resolve kind pathname)
            (writePlistToString plist) with _ | fs2
        · left; simp [Plist.new, hex, hstep, hplist, how]
        · by_cases hg : user ≠ "" ∧ env.git = true
          · right
            exact ⟨hg, by simp [Plist.new, hex, hstep, hplist, how, hg]⟩
          · left; simp [Plist.new, hex, hstep, hplist, how, hg]

theorem write_trace_cases (env : Env) (fs : FS) (data : Bytes) (kind : String)
    (pathname : Path) (user : String) :
    (Plist.write env fs data kind pathname user).trace = [] ∨
    ((user ≠ "" ∧ env.git = true) ∧
     (Plist.write env fs data kind pathname user).trace
       = [MunkiGit_add_file_at_path env (resolve kind pathname) user]) := by
  rcases hstep : (if os_path_exists fs (resolve kind pathname).dropLast then
                    Except.ok fs
                  else
                    match os_makedirs env fs (resolve kind pathname).dropLast with
                    | .error _ => Except.error ()
                    | .ok fs1 => Except.ok fs1) with _ | fs1
  · left; simp [Plist.write, hstep]
  · rcases how : os_open_write env fs1 (resolve kind pathname) data with _ | fs2
    · left; simp [Plist.write, hstep, how]
    · by_cases hg : user ≠ "" ∧ env.git = true
      · right
        exact ⟨hg, by simp [Plist.write, hstep, how, hg]⟩
      · left; simp [Plist.write, hstep, how, hg]

theorem delete_trace_cases (env : Env) (fs : FS) (kind : String)
    (pathname : Path) (user : String) :
    (Plist.delete env fs kind pathname user).trace = [] ∨
    ((user ≠ "" ∧ env.git = true) ∧
     (Plist.delete env fs kind pathname user).trace
       = [MunkiGit_delete_file_at_path env (resolve kind pathname) user]) := by
  by_cases hex : os_path_exists fs (resolve kind pathname) = true
  · rcases hul : os_unlink env fs (resolve kind pathname) with _ | fs1
    · left; simp [Plist.delete, hex, hul]
    · by_cases hg : user ≠ "" ∧ env.git = true
      · right
        exact ⟨hg, by simp [Plist.delete, hex, hul, hg]⟩
      · left; simp [Plist.delete, hex, hul, hg]
  · rw [Bool.not_eq_true] at hex
    left; simp [Plist.delete, hex]

theorem new_mirror_indep (env : Env) (b : Bool) (fs : FS) (kind : String)
    (pathname : Path) (user : String) (pd : Option PlistValue) :
    (Plist.new {env with mirrorFault := b} fs kind pathname user pd).res
      = (Plist.new env fs kind pathname user pd).res ∧
    (Plist.new {env with mirrorFault := b} fs kind pathname user pd).fs
      = (Plist.new env fs kind pathname user pd).fs := by
  have hmk : ∀ (f : FS) (p : Path),
      os_makedirs {env with mirrorFault := b} f p = os_makedirs env f p :=
    fun _ _ => rfl
  have how : ∀ (f : FS) (p : Path) (d : Bytes),
      os_open_write {env with mirrorFault := b} f p d
        = os_open_write env f p d :=
    fun _ _ _ => rfl
  have hg : ({env with mirrorFault := b} : Env).git = env.git := rfl
  by_cases hex : os_path_exists fs (resolve kind pathname) = true
  · constructor <;> simp [Plist.new, hex]
  · rw [Bool.not_eq_true] at hex
    rcases hstep : (if os_path_exists fs (resolve kind pathname).dropLast then
                      Except.ok fs
                    else
                      match os_makedirs env fs (resolve kind pathname).dropLast with
                      | .error _ => Except.error ()
                      | .ok fs1 => Except.ok fs1) with _ | fs1
    · constructor <;> simp [Plist.new, hex, hmk, how, hg, hstep]
    · rcases hplist : (if optTruthy pd then pd
                       else if kind = "manifests" then some manifestTemplate
                       else if kind = "pkgsinfo" then some pkgsinfoTemplate
                       else none) with _ | plist
      · constructor <;> simp [Plist.new, hex, hmk, how, hg, hstep, hplist]
      · rcases hw : os_open_write env fs1 (resolve kind pathname)
            (writePlistToString plist) with _ | fs2 <;>
          constructor <;> simp [Plist.new, hex, hmk, how, hg, hstep, hplist, hw]

theorem write_mirror_indep (env : Env) (b : Bool) (fs : FS) (data : Bytes)
    (kind : String) (pathname : Path) (user : String) :
    (Plist.write {env with mirrorFault := b} fs data kind pathname user).res
      = (Plist.write env fs data kind pathname user).res ∧
    (Plist.write {env with mirrorFault := b} fs data kind pathname user).fs
      = (Plist.write env fs data kind pathname user).fs := by
  have hmk : ∀ (f : FS) (p : Path),
      os_makedirs {env with mirrorFault := b} f p = os_makedirs env f p :=
    fun _ _ => rfl
  have how : ∀ (f : FS) (p : Path) (d : Bytes),
      os_open_write {env with mirrorFault := b} f p d
        = os_open_write env f p d :=
    fun _ _ _ => rfl
  rcases hstep : (if os_path_exists fs (resolve kind pathname).dropLast then
                    Except.ok fs
                  else
                    match os_makedirs env fs (resolve kind pathname).dropLast with
                    | .error _ => Except.error ()
                    | .ok fs1 => Except.ok fs1) with _ | fs1
  · constructor <;> simp [Plist.write, hmk, how, hstep]
  · rcases hw : os_open_write env fs1 (resolve kind pathname) data
        with _ | fs2 <;>
      constructor <;> simp [Plist.write, hmk, how, hstep, hw]

theorem delete_mirror_indep (env : Env) (b : Bool) (fs : FS) (kind : String)
    (pathname : Path) (user : String) :
    (Plist.delete {env with mirrorFault := b} fs kind pathname user).res
      = (Plist.delete env fs kind pathname user).res ∧
    (Plist.delete {env with mirrorFault := b} fs kind pathname user).fs
      = (Plist.delete env fs kind pathname user).fs := by
  have hul : ∀ (f : FS) (p : Path),
      os_unlink {env with mirrorFault := b} f p = os_unlink env f p :=
    fun _ _ => rfl
  by_cases hex : os_path_exists fs (resolve kind pathname) = true
  · rcases hu : os_unlink env fs (resolve kind pathname) with _ | fs1 <;>
      constructor <;> simp [Plist.delete, hex, hul, hu]
  · rw [Bool.not_eq_true] at hex
    constructor <;> simp [Plist.delete, hex]

theorem isDir_congr {fs1 fs : FS} {p : Path}
    (h : fs1.lookup p = fs.lookup p) : fs1.isDir p = fs.isDir p := by
  simp [FS.isDir, h]

theorem delete_not_exists (env : Env) (fs : FS) (kind : String)
    (pathname : Path) (user : String)
    (hex : os_path_exists fs (resolve kind pathname) = false) :
    Plist.delete env fs kind pathname user
      = ⟨.error .fileDoesNotExistError, fs, []⟩ := by
  simp [Plist.delete, hex]

theorem read_not_exists (env : Env) (fs : FS) (kind : String)
    (pathname : Path)
    (hex : os_path_exists fs (resolve kind pathname) = false) :
    Plist.read env fs kind pathname
      = ⟨.error .fileDoesNotExistError, fs, []⟩ := by
  simp [Plist.read, hex]

theorem munki_delete_not_exists (env : Env) (fs : FS) (kind : String)
    (pathname : Path) (user : String)
    (hex : os_path_exists fs (resolve kind pathname) = false) :
    MunkiFile.delete env fs kind pathname user
      = ⟨.error .fileDoesNotExistError, fs, []⟩ := by
  simp [MunkiFile.delete, hex]

/-- C1 counterexample: `Plist.new` with the caller-supplied content
`some (.dict [])` (an empty mapping, which Python treats as falsy in
`if plist_data:`) succeeds but writes the manifests default template, so
the immediately following `read` returns the template, which is not the
caller-supplied document. -/
theorem new_read_empty_dict_counterexample :
    optTruthy (some (PlistValue.dict [])) = false ∧
    (Plist.new env0 fs0 "manifests" ["m1"] "admin"
        (some (PlistValue.dict []))).res
      = .ok (Bytes.plist manifestTemplate) ∧
    (Plist.read env0 (Plist.new env0 fs0 "manifests" ["m1"] "admin"
        (some (PlistValue.dict []))).fs "manifests" ["m1"]).res
      = .ok manifestTemplate ∧
    manifestTemplate ≠ PlistValue.dict [] := by
  refine ⟨rfl, rfl, rfl, ?_⟩
  simp [manifestTemplate, manifestSections]

/-- C1 (amended): a successful `Plist.new` immediately followed by `read`
returns the parsed value of exactly the document that was serialized and
written — the caller-supplied content whenever the supplied value is
truthy — and `new` itself returns the serialized bytes, not the parsed
value; a successful `MunkiFile.new` leaves the file holding exactly the
concatenation of the upload's chunks. -/
theorem new_read_roundtrip (env : Env) (fs : FS) (kind : String)
    (pathname : Path) (user : String) (pd : Option PlistValue) (d : Bytes)
    (fs2 : FS) (kind2 : String) (fu : FileUpload) (pathname2 : Path)
    (user2 : String)
    (hnew : (Plist.new env fs kind pathname user pd).res = .ok d)
    (hrf : env.readFault = false)
    (hbnew : (MunkiFile.new env fs2 kind2 fu pathname2 user2).res = .ok ()) :
    (∃ v, d = Bytes.plist v
      ∧ (Plist.new env fs kind pathname user pd).fs.lookup
          (resolve kind pathname) = some (.file d)
      ∧ (Plist.read env (Plist.new env fs kind pathname user pd).fs
            kind pathname).res = .ok v
      ∧ (optTruthy pd = true → pd = some v)) ∧
    (MunkiFile.new env fs2 kind2 fu pathname2 user2).fs.lookup
        (resolve kind2 pathname2) = some (.file (.raw fu.chunks.flatten)) := by
  constructor
  · obtain ⟨v, hd, htr, _, hlu⟩ :=
      Plist_new_ok env fs kind pathname user pd d hnew
    refine ⟨v, hd, hlu, ?_, htr⟩
    refine Plist_read_of_plist_file env _ kind pathname v ?_ hrf
    rw [hlu, hd]
  · exact MunkiFile_new_ok env fs2 kind2 fu pathname2 user2 hbnew

theorem new_read_roundtrip_witness :
    (MunkiFile.new env0 fsIcons "icons" ⟨[[1], [2]]⟩ ["app.png"]
        "admin").fs.lookup (resolve "icons" ["app.png"])
      = some (.file (.raw [1, 2])) := by
  have h := (new_read_roundtrip env0 fs0 "manifests" ["m1"] "admin"
      (some (.dict [("k", PlistValue.str "v")]))
      (.plist (.dict [("k", PlistValue.str "v")]))
      fsIcons "icons" ⟨[[1], [2]]⟩ ["app.png"] "admin" rfl rfl rfl).2
  simpa using h

/-- C2: `new` (both stores) at an already-occupied path raises
`FileAlreadyExistsError` and performs no write, directory creation or
mirror notification: the result is the error with the filesystem
untouched and an empty mirror trace. -/
theorem new_existing_path_fails (env : Env) (fs : FS) (kind : String)
    (pathname : Path) (user : String) (pd : Option PlistValue)
    (fu : FileUpload)
    (hex : os_path_exists fs (resolve kind pathname) = true) :
    Plist.new env fs kind pathname user pd
      = ⟨.error .fileAlreadyExistsError, fs, []⟩ ∧
    MunkiFile.new env fs kind fu pathname user
      = ⟨.error .fileAlreadyExistsError, fs, []⟩ := by
  constructor
  · simp [Plist.new, hex]
  · simp [MunkiFile.new, hex]

theorem new_existing_path_fails_witness :
    Plist.new env0 fs0 "manifests" [] "admin" none
      = ⟨.error .fileAlreadyExistsError, fs0, []⟩ ∧
    MunkiFile.new env0 fs0 "manifests" ⟨[]⟩ [] "admin"
      = ⟨.error .fileAlreadyExistsError, fs0, []⟩ :=
  new_existing_path_fails env0 fs0 "manifests" [] "admin" none ⟨[]⟩
    (by decide)

/-- C3: reading an existing, readable file whose bytes are not a valid
plist returns an empty mapping instead of raising, while an I/O failure
while reading an existing file raises `FileReadError`. -/
theorem read_lenient (env : Env) (fs : FS) (kind : String)
    (pathname : Path) :
    (∀ bs : List Nat,
      fs.lookup (resolve kind pathname) = some (.file (.raw bs)) →
      env.readFault = false →
      (Plist.read env fs kind pathname).res = .ok (.dict [])) ∧
    (env.readFault = true →
      os_path_exists fs (resolve kind pathname) = true →
      (Plist.read env fs kind pathname).res = .error .fileReadError) := by
  constructor
  · intro bs hf hrf
    have hfile : fs.isFile (resolve kind pathname) = true := by
      simp [FS.isFile, hf]
    have hex : os_path_exists fs (resolve kind pathname) = true := by
      simp [os_path_exists, hfile]
    simp [Plist.read, hex, os_read_contents, hrf, hf, parsePlist]
  · intro hrf hex
    simp [Plist.read, hex, os_read_contents, hrf]

theorem read_lenient_witness :
    (Plist.read env0
        ⟨[(["manifests"], .dir),
          (["manifests", "bad"], .file (.raw [0, 1, 2]))]⟩
        "manifests" ["bad"]).res = .ok (.dict []) :=
  (read_lenient env0
      ⟨[(["manifests"], .dir),
        (["manifests", "bad"], .file (.raw [0, 1, 2]))]⟩
      "manifests" ["bad"]).1 [0, 1, 2] rfl rfl

/-- C4 counterexample: `MunkiFile.write` at a pathname with no existing
filesystem entry does not raise `FileDoesNotExistError` — it has no
presence check and succeeds, creating the file. -/
theorem blob_write_upserts_counterexample :
    os_path_exists fsIcons (resolve "icons" ["app.png"]) = false ∧
    (MunkiFile.write env0 fsIcons "icons" ⟨[[137, 80, 78, 71]]⟩
        ["app.png"] "admin").res = .ok () :=
  ⟨by decide, rfl⟩

/-- C4 (amended): `read` and `delete` (both stores) at a pathname with no
existing entry raise `FileDoesNotExistError` without mutating anything;
`MunkiFile.write`, like `Plist.write`, performs no presence check and
upserts; after a successful `delete`, a second `delete` or a `read` of
the same pathname raises `FileDoesNotExistError`. -/
theorem absent_path_read_delete_fail (env : Env) (fs : FS) (kind : String)
    (pathname : Path) (user : String) :
    (os_path_exists fs (resolve kind pathname) = false →
      Plist.read env fs kind pathname
        = ⟨.error .fileDoesNotExistError, fs, []⟩ ∧
      Plist.delete env fs kind pathname user
        = ⟨.error .fileDoesNotExistError, fs, []⟩ ∧
      MunkiFile.delete env fs kind pathname user
        = ⟨.error .fileDoesNotExistError, fs, []⟩) ∧
    ((Plist.delete env fs kind pathname user).res = .ok () →
      (Plist.delete env (Plist.delete env fs kind pathname user).fs
          kind pathname user).res = .error .fileDoesNotExistError ∧
      (Plist.read env (Plist.delete env fs kind pathname user).fs
          kind pathname).res = .error .fileDoesNotExistError) := by
  constructor
  · intro hex
    exact ⟨read_not_exists env fs kind pathname hex,
           delete_not_exists env fs kind pathname user hex,
           munki_delete_not_exists env fs kind pathname user hex⟩
  · intro hok
    have hnone := Plist_delete_ok env fs kind pathname user hok
    have hex2 := not_exists_of_lookup_none _ kind pathname hnone
    constructor
    · rw [delete_not_exists env _ kind pathname user hex2]
    · rw [read_not_exists env _ kind pathname hex2]

theorem absent_path_read_delete_fail_witness :
    (Plist.read env0 fs0 "manifests" ["x"]
        = ⟨.error .fileDoesNotExistError, fs0, []⟩) ∧
    ((Plist.delete env0 fsM "manifests" ["m1"] "admin").res = .ok () ∧
     (Plist.delete env0 (Plist.delete env0 fsM "manifests" ["m1"]
         "admin").fs "manifests" ["m1"] "admin").res
       = .error .fileDoesNotExistError) :=
  ⟨((absent_path_read_delete_fail env0 fs0 "manifests" ["x"] "admin").1
      (by decide)).1,
   rfl,
   ((absent_path_read_delete_fail env0 fsM "manifests" ["m1"] "admin").2
      rfl).1⟩

/-- C5: `Plist.write` is an unconditional upsert: its only error is
`FileWriteError`; on success the supplied bytes are stored verbatim at
the resolved path (whether or not a file previously existed there); a
directory-creation failure when the parent is missing, or an injected
write failure, yields `FileWriteError`; and absent faults it succeeds
whenever the target is not a directory and no initial segment of the
parent path is a regular file. -/
theorem write_upsert (env : Env) (fs : FS) (data : Bytes) (kind : String)
    (pathname : Path) (user : String) :
    ((Plist.write env fs data kind pathname user).res = .ok () ∨
     (Plist.write env fs data kind pathname user).res
       = .error .fileWriteError) ∧
    ((Plist.write env fs data kind pathname user).res = .ok () →
      (Plist.write env fs data kind pathname user).fs.lookup
        (resolve kind pathname) = some (.file data)) ∧
    (os_path_exists fs (resolve kind pathname).dropLast = false →
      (env.mkdirFault = true ∨
       (initialSegments (resolve kind pathname).dropLast).any
           (fun q => fs.isFile q) = true) →
      (Plist.write env fs data kind pathname user).res
        = .error .fileWriteError) ∧
    (env.openFault = true →
      (Plist.write env fs data kind pathname user).res
        = .error .fileWriteError) ∧
    (env.mkdirFault = false → env.openFault = false →
      fs.isDir (resolve kind pathname) = false →
      (initialSegments (resolve kind pathname).dropLast).any
          (fun q => fs.isFile q) = false →
      (Plist.write env fs data kind pathname user).res = .ok ()) := by
  refine ⟨Plist_write_res env fs data kind pathname user,
          Plist_write_ok env fs data kind pathname user, ?_, ?_, ?_⟩
  · intro hpe hbad
    have hmk : os_makedirs env fs (resolve kind pathname).dropLast
        = .error () := by
      unfold os_makedirs
      rcases hbad with h | h <;> simp [h]
    simp [Plist.write, hpe, hmk]
  · intro hof
    rcases hstep : (if os_path_exists fs (resolve kind pathname).dropLast then
                      Except.ok fs
                    else
                      match os_makedirs env fs
                          (resolve kind pathname).dropLast with
                      | .error _ => Except.error ()
                      | .ok fs1 => Except.ok fs1) with _ | fs1
    · simp [Plist.write, hstep]
    · have hw : os_open_write env fs1 (resolve kind pathname) data
          = .error () := by
        simp [os_open_write, hof]
      simp [Plist.write, hstep, hw]
  · intro hmf hof hdirtarget hseg
    have hnotfile : ∀ q ∈ initialSegments (resolve kind pathname).dropLast,
        fs.isFile q = false := by
      intro q hq
      have := List.any_eq_false.mp hseg q hq
      simpa using this
    by_cases hpe : os_path_exists fs (resolve kind pathname).dropLast = true
    · have hpd : fs.isDir (resolve kind pathname).dropLast = true := by
        by_cases hnil : (resolve kind pathname).dropLast = []
        · simp [FS.isDir, hnil]
        · have hnf := hnotfile _ (self_mem_initialSegments _ hnil)
          simpa [os_path_exists, hnf] using hpe
      have hw : os_open_write env fs (resolve kind pathname) data
          = .ok (fs.set (resolve kind pathname) (.file data)) := by
        simp [os_open_write, hof, hdirtarget, hpd]
      simp [Plist.write, hpe, hw]
    · rw [Bool.not_eq_true] at hpe
      have hmk : os_makedirs env fs (resolve kind pathname).dropLast
          = .ok (fs.addDirs
              (initialSegments (resolve kind pathname).dropLast)) := by
        simp [os_makedirs, hmf, hseg]
      have hnil : (resolve kind pathname).dropLast ≠ [] := by
        intro hn
        rw [hn] at hpe
        simp [os_path_exists, FS.isDir] at hpe
      have hnone : fs.lookup (resolve kind pathname).dropLast = none :=
        lookup_eq_none_of_not_exists fs _ hpe
      have hsome := addDirs_isSome_of_mem
          (initialSegments (resolve kind pathname).dropLast) fs _
          (self_mem_initialSegments _ hnil)
      have hdirparent :
          (fs.addDirs (initialSegments (resolve kind pathname).dropLast)).isDir
            (resolve kind pathname).dropLast = true := by
        rcases addDirs_lookup_or
            (initialSegments (resolve kind pathname).dropLast) fs
            (resolve kind pathname).dropLast with h | h
        · rw [h, hnone] at hsome
          cases hsome
        · simp [FS.isDir, h]
      have hnm : resolve kind pathname
          ∉ initialSegments (resolve kind pathname).dropLast := by
        intro hmem
        have hle := length_le_of_mem_initialSegments _ _ hmem
        have hlen : (resolve kind pathname).dropLast.length
            < (resolve kind pathname).length := by
          rw [List.length_dropLast]
          have : (resolve kind pathname).length ≠ 0 := by simp [resolve]
          omega
        omega
      have htarget :
          (fs.addDirs (initialSegments (resolve kind pathname).dropLast)).isDir
            (resolve kind pathname) = false :=
        (isDir_congr (addDirs_lookup_not_mem _ fs _ hnm)).trans hdirtarget
      have hw : os_open_write env
          (fs.addDirs (initialSegments (resolve kind pathname).dropLast))
          (resolve kind pathname) data
          = .ok ((fs.addDirs
              (initialSegments (resolve kind pathname).dropLast)).set
                (resolve kind pathname) (.file data)) := by
        simp [os_open_write, hof, htarget, hdirparent]
      simp [Plist.write, hpe, hmk, hw]

theorem write_upsert_witness :
    (Plist.write env0 fs0 (Bytes.raw [7]) "manifests" ["m1"] "admin").res
      = .ok () :=
  (write_upsert env0 fs0 (Bytes.raw [7]) "manifests" ["m1"]
      "admin").2.2.2.2 rfl rfl (by decide) (by decide)

/-- C6 evaluation at the failing inputs: `Plist.list` removes `.a` from the
`dirnames` list while iterating over it, so the iterator skips the
sibling `.b`, the walk descends into `.b`, and the listing returns the
entry `.b/x` from under a dot-directory; `MunkiFile.list` prunes only the
three fixed `skipdirs` names, so it descends into `.hidden` and returns
`.hidden/y`.  Both contradict the claim that `list` never descends into a
directory whose name starts with a dot (and, for `Plist.list`, the
source's own comment). -/
theorem list_descends_into_dot_dirs :
    Plist.list fsDotBug "manifests" = [[".b", "x"]] ∧
    MunkiFile.list fsHiddenBlob "icons" = [[".hidden", "y"]] := by
  constructor <;> decide

/-- C7: `Plist.new` with no content synthesizes the kind's default
template: for `manifests` a mapping with exactly the six section keys
each mapped to an empty array, for `pkgsinfo` the five-key placeholder
record; in both cases the written file parses back to that template. -/
theorem new_default_templates (env : Env) (fs : FS) (pathname : Path)
    (user : String) (hrf : env.readFault = false) :
    (∀ d, (Plist.new env fs "manifests" pathname user none).res = .ok d →
      d = Bytes.plist (.dict [("catalogs", .arr []),
            ("included_manifests", .arr []), ("managed_installs", .arr []),
            ("managed_uninstalls", .arr []), ("managed_updates", .arr []),
            ("optional_installs", .arr [])]) ∧
      (Plist.read env (Plist.new env fs "manifests" pathname user none).fs
          "manifests" pathname).res = .ok manifestTemplate) ∧
    (∀ d, (Plist.new env fs "pkgsinfo" pathname user none).res = .ok d →
      d = Bytes.plist (.dict [("name", .str "ProductName"),
            ("display_name", .str "Display Name"),
            ("description", .str "Product description"),
            ("version", .str "1.0"),
            ("catalogs", .arr [.str "development"])]) ∧
      (Plist.read env (Plist.new env fs "pkgsinfo" pathname user none).fs
          "pkgsinfo" pathname).res = .ok pkgsinfoTemplate) := by
  constructor
  · intro d h
    obtain ⟨v, hd, _, hkind, hlu⟩ :=
      Plist_new_ok env fs "manifests" pathname user none d h
    rcases hkind rfl with ⟨_, hv⟩ | ⟨hk, _⟩
    · subst hv
      refine ⟨hd, ?_⟩
      refine Plist_read_of_plist_file env _ "manifests" pathname
          manifestTemplate ?_ hrf
      rw [hlu, hd]
    · exact absurd hk (by decide)
  · intro d h
    obtain ⟨v, hd, _, hkind, hlu⟩ :=
      Plist_new_ok env fs "pkgsinfo" pathname user none d h
    rcases hkind rfl with ⟨hk, _⟩ | ⟨_, hv⟩
    · exact absurd hk (by decide)
    · subst hv
      refine ⟨hd, ?_⟩
      refine Plist_read_of_plist_file env _ "pkgsinfo" pathname
          pkgsinfoTemplate ?_ hrf
      rw [hlu, hd]

theorem new_default_templates_witness :
    (Plist.new env0 fs0 "manifests" ["site", "default"] "admin" none).res
      = .ok (Bytes.plist manifestTemplate) ∧
    (Plist.read env0 (Plist.new env0 fs0 "manifests" ["site", "default"]
        "admin" none).fs "manifests" ["site", "default"]).res
      = .ok manifestTemplate := by
  have h := (new_default_templates env0 fs0 ["site", "default"] "admin"
      rfl).1 (Bytes.plist manifestTemplate) rfl
  exact ⟨rfl, h.2⟩

/-- C8: the outcome (`res`) and the final filesystem of every `Plist`
mutation are independent of an internal failure of the version-control
mirror, and the filesystem mutation is present in the final state even
when the mirror fails: a mirror failure is never surfaced to the caller
and never rolls back the already-performed mutation. -/
theorem mirror_best_effort (env : Env) (b : Bool) (fs : FS) (kind : String)
    (pathname : Path) (user : String) (pd : Option PlistValue)
    (data : Bytes) :
    ((Plist.new {env with mirrorFault := b} fs kind pathname user pd).res
        = (Plist.new env fs kind pathname user pd).res ∧
      (Plist.new {env with mirrorFault := b} fs kind pathname user pd).fs
        = (Plist.new env fs kind pathname user pd).fs) ∧
    ((Plist.write {env with mirrorFault := b} fs data kind pathname
          user).res = (Plist.write env fs data kind pathname user).res ∧
      (Plist.write {env with mirrorFault := b} fs data kind pathname
          user).fs = (Plist.write env fs data kind pathname user).fs) ∧
    ((Plist.delete {env with mirrorFault := b} fs kind pathname user).res
        = (Plist.delete env fs kind pathname user).res ∧
      (Plist.delete {env with mirrorFault := b} fs kind pathname user).fs
        = (Plist.delete env fs kind pathname user).fs) ∧
    (∀ d, (Plist.new {env with mirrorFault := b} fs kind pathname user
          pd).res = .ok d →
      (Plist.new {env with mirrorFault := b} fs kind pathname user
          pd).fs.lookup (resolve kind pathname) = some (.file d)) ∧
    ((Plist.write {env with mirrorFault := b} fs data kind pathname
          user).res = .ok () →
      (Plist.write {env with mirrorFault := b} fs data kind pathname
          user).fs.lookup (resolve kind pathname) = some (.file data)) ∧
    ((Plist.delete {env with mirrorFault := b} fs kind pathname user).res
          = .ok () →
      (Plist.delete {env with mirrorFault := b} fs kind pathname
          user).fs.lookup (resolve kind pathname) = none) := by
  refine ⟨new_mirror_indep env b fs kind pathname user pd,
          write_mirror_indep env b fs data kind pathname user,
          delete_mirror_indep env b fs kind pathname user, ?_, ?_, ?_⟩
  · intro d h
    obtain ⟨v, _, _, _, hlu⟩ :=
      Plist_new_ok {env with mirrorFault := b} fs kind pathname user pd d h
    exact hlu
  · exact Plist_write_ok {env with mirrorFault := b} fs data kind pathname
      user
  · exact Plist_delete_ok {env with mirrorFault := b} fs kind pathname user

theorem mirror_best_effort_witness :
    (Plist.write {envGit with mirrorFault := true} fs0 (Bytes.raw [7])
        "manifests" ["m1"] "admin").fs.lookup (resolve "manifests" ["m1"])
      = some (.file (.raw [7])) :=
  (mirror_best_effort envGit true fs0 "manifests" ["m1"] "admin" none
      (Bytes.raw [7])).2.2.2.2.1 rfl

/-- C9: the version-control mirror is invoked only by `Plist.new`,
`Plist.write` and `Plist.delete`, and only when the user identity is
non-empty and the mirror is configured-enabled; `Plist.read` and every
`MunkiFile` operation never invoke it. -/
theorem mirror_gating (env : Env) (fs : FS) (kind : String)
    (pathname : Path) (user : String) (pd : Option PlistValue)
    (data : Bytes) (fu : FileUpload) :
    ((Plist.new env fs kind pathname user pd).trace ≠ [] →
      user ≠ "" ∧ env.git = true) ∧
    ((Plist.write env fs data kind pathname user).trace ≠ [] →
      user ≠ "" ∧ env.git = true) ∧
    ((Plist.delete env fs kind pathname user).trace ≠ [] →
      user ≠ "" ∧ env.git = true) ∧
    (Plist.read env fs kind pathname).trace = [] ∧
    (MunkiFile.new env fs kind fu pathname user).trace = [] ∧
    (MunkiFile.write env fs kind fu pathname user).trace = [] ∧
    (MunkiFile.delete env fs kind pathname user).trace = [] := by
  refine ⟨?_, ?_, ?_, Plist_read_trace env fs kind pathname,
          MunkiFile_new_trace env fs kind fu pathname user,
          MunkiFile_write_trace env fs kind fu pathname user,
          MunkiFile_delete_trace env fs kind pathname user⟩
  · intro ht
    rcases new_trace_cases env fs kind pathname user pd with h | h
    · exact absurd h ht
    · exact h.1
  · intro ht
    rcases write_trace_cases env fs data kind pathname user with h | h
    · exact absurd h ht
    · exact h.1
  · intro ht
    rcases delete_trace_cases env fs kind pathname user with h | h
    · exact absurd h ht
    · exact h.1

theorem mirror_gating_witness :
    ("admin" : String) ≠ "" ∧ envGit.git = true :=
  (mirror_gating envGit fs0 "manifests" ["m1"] "admin" none
      (Bytes.raw [7]) ⟨[]⟩).1 (by decide)

/-- C10: for a kind other than `manifests` and `pkgsinfo`, `Plist.new`
with no content at an unoccupied pathname leaves the Python local
`plist` unassigned, so it raises `NameError` — not one of the domain
`FileError` kinds — after possibly creating missing parent directories;
no file is written (regular files are untouched) and the mirror is not
invoked. -/
theorem new_unknown_kind_name_error (env : Env) (fs : FS) (kind : String)
    (pathname : Path) (user : String)
    (hk1 : kind ≠ "manifests") (hk2 : kind ≠ "pkgsinfo")
    (hex : os_path_exists fs (resolve kind pathname) = false)
    (hmf : env.mkdirFault = false)
    (hsegs : (initialSegments (resolve kind pathname).dropLast).any
        (fun q => fs.isFile q) = false) :
    (Plist.new env fs kind pathname user none).res = .error .nameError ∧
    Err.nameError.isFileError = false ∧
    (∀ q, (Plist.new env fs kind pathname user none).fs.isFile q
        = fs.isFile q) ∧
    (Plist.new env fs kind pathname user none).trace = [] := by
  by_cases hpe : os_path_exists fs (resolve kind pathname).dropLast = true
  · refine ⟨?_, rfl, ?_, ?_⟩ <;>
      simp [Plist.new, hex, hpe, optTruthy, hk1, hk2]
  · rw [Bool.not_eq_true] at hpe
    have hmk : os_makedirs env fs (resolve kind pathname).dropLast
        = .ok (fs.addDirs
            (initialSegments (resolve kind pathname).dropLast)) := by
      simp [os_makedirs, hmf, hsegs]
    refine ⟨?_, rfl, ?_, ?_⟩
    · simp [Plist.new, hex, hpe, hmk, optTruthy, hk1, hk2]
    · intro q
      have hfs : (Plist.new env fs kind pathname user none).fs
          = fs.addDirs (initialSegments (resolve kind pathname).dropLast) := by
        simp [Plist.new, hex, hpe, hmk, optTruthy, hk1, hk2]
      rw [hfs]
      exact addDirs_isFile _ fs q
    · simp [Plist.new, hex, hpe, hmk, optTruthy, hk1, hk2]

theorem new_unknown_kind_name_error_witness :
    (Plist.new env0 fs0 "icons" ["a"] "admin" none).res
        = .error .nameError ∧
    Err.nameError.isFileError = false := by
  have h := new_unknown_kind_name_error env0 fs0 "icons" ["a"] "admin"
    (by decide) (by decide) (by decide) rfl (by decide)
  exact ⟨h.1, h.2.1⟩

end MWA2
